import Mathlib

/-!
Flash primitives of the C8051F340 firmware (firmware/flash.c).

A shallow embedding of the four routines of flash.c (SetFlashKey, EraseFlashPage,
WriteFlashPage, ReadFlashPage) as state-passing functions over the special function
registers they touch, together with a record of every register and memory write they
issue, in program order.

Target facts used by the embedding (8051 C compilers for the C8051F340):
unsigned int and xdata pointers are 16 bits wide, unsigned char is 8 bits wide and
EA is a single bit.
-/

namespace Flash

/-- Values that flash.c takes from outside the file: the build-time switch
FLASH_GROUP_WRITE_EN (tested by the preprocessor in WriteFlashPage) and the size of a
flash page of the device. -/
structure Config where
  FLASH_GROUP_WRITE_EN : Bool
  pageSize : Nat
  deriving DecidableEq, Repr

/-- State of the lock and key function behind the FLKEY register. -/
inductive KeyState
  | idle
  | first
  | unlocked
  deriving DecidableEq, Repr

/-- A write issued by the firmware to a register or through an xdata pointer. -/
inductive Op
  | EA (b : Bool)
  | FLKEY (v : Nat)
  | PSCTL (v : Nat)
  | PFE0CN (v : Nat)
  | movx (addr : Nat) (v : Nat)
  deriving DecidableEq, Repr

/-- A recorded write together with the values EA and PSCTL had when it was issued. -/
structure Event where
  op : Op
  EA : Bool
  PSCTL : Nat
  deriving DecidableEq, Repr

/-- The static array FlashKey[2], the registers used by flash.c, the state of the key
register, the flash contents (the bytes that the xdata pointers of flash.c address), and
the record of writes issued so far (oldest first). -/
structure State where
  FlashKey0 : Nat
  FlashKey1 : Nat
  EA : Bool
  PSCTL : Nat
  PFE0CN : Nat
  key : KeyState
  flash : Nat → Nat
  trace : List Event

/-- Modelled from the spec: the reaction of the key register, which flash.c only writes.
The unlock is granted by the enabling sequence 0xA5 then 0xF1 and by no other
sequence. -/
def hwKey (v : Nat) (k : KeyState) : KeyState :=
  if v = 0xA5 then KeyState.first
  else if k = KeyState.first ∧ v = 0xF1 then KeyState.unlocked
  else KeyState.idle

/-- Modelled from the spec: the reaction of the flash controller to a write through an
xdata pointer. With PSCTL bit 0 (program enable) clear the write does not target flash.
With it set, the write consumes the unlock; without an unlock it is silently rejected;
with an unlock it erases the containing page to 0xFF when PSCTL bit 1 (erase enable) is
set and otherwise programs the byte, which can only clear bits. The grouped-write flag in
PFE0CN changes timing only. -/
def hwMovx (cfg : Config) (a v : Nat) (s : State) : State :=
  if s.PSCTL % 2 = 1 then
    if s.key = KeyState.unlocked then
      if (s.PSCTL / 2) % 2 = 1 then
        { s with key := KeyState.idle,
                 flash := fun x => if x / cfg.pageSize = a / cfg.pageSize then 0xFF else s.flash x }
      else
        { s with key := KeyState.idle,
                 flash := fun x => if x = a then s.flash a &&& v else s.flash x }
    else { s with key := KeyState.idle }
  else s

/-- Append one write to the record, with EA and PSCTL as they are at that moment. -/
def record (o : Op) (s : State) : State :=
  { s with trace := s.trace ++ [{ op := o, EA := s.EA, PSCTL := s.PSCTL }] }

/-- The statement EA = v for an unsigned char v: the bit is set iff v is non-zero. -/
def write_EA (v : Nat) (s : State) : State :=
  { record (Op.EA (v != 0)) s with EA := v != 0 }

/-- The statement FLKEY = v. -/
def write_FLKEY (v : Nat) (s : State) : State :=
  { record (Op.FLKEY v) s with key := hwKey v s.key }

/-- The statement PSCTL = v. -/
def write_PSCTL (v : Nat) (s : State) : State :=
  { record (Op.PSCTL v) s with PSCTL := v }

/-- The statement PFE0CN = v. -/
def write_PFE0CN (v : Nat) (s : State) : State :=
  { record (Op.PFE0CN v) s with PFE0CN := v }

/-- A store of v through an xdata pointer holding a. -/
def movx_write (cfg : Config) (a v : Nat) (s : State) : State :=
  hwMovx cfg a v (record (Op.movx a v) s)

/-- A load through an xdata pointer holding a: no register is touched. -/
def movx_read (a : Nat) (s : State) : Nat × State :=
  (s.flash a, s)

/-- The value read from the bit EA into an unsigned char. -/
def read_EA (s : State) : Nat :=
  if s.EA then 1 else 0

/-- SetFlashKey (flash.c 24-27). key1 is an unsigned char; key2 is declared unsigned and
is truncated to 8 bits by the store into FlashKey[1]. -/
def SetFlashKey (key1 key2 : Nat) (s : State) : State :=
  { s with FlashKey0 := key1, FlashKey1 := key2 % 256 }

/-- EraseFlashPage (flash.c 40-63). -/
def EraseFlashPage (cfg : Config) (pageAddress : Nat) (s : State) : State :=
  let EA_Save := read_EA s
  let pAddr := pageAddress
  let s := write_EA 0 s
  let s := write_FLKEY s.FlashKey0 s
  let s := write_FLKEY s.FlashKey1 s
  let s := write_PSCTL 0x03 s
  let s := movx_write cfg pAddr 0x00 s
  let s := write_PSCTL 0x00 s
  write_EA EA_Save s

/-- The for loop of WriteFlashPage (flash.c 96-104), entered with counter i. The
counter never exceeds size, so i++ does not wrap; pAddr[i] is computed in the 16-bit
xdata address space. The first argument bounds the number of iterations. -/
def WriteFlashPage.loop (cfg : Config) (pAddr : Nat) (buffer : Nat → Nat) (size : Nat) :
    Nat → Nat → State → State
  | 0, _, s => s
  | fuel + 1, i, s =>
    if i < size then
      let s := write_FLKEY s.FlashKey0 s
      let s := write_FLKEY s.FlashKey1 s
      let s := movx_write cfg ((pAddr + i) % 65536) (buffer i) s
      WriteFlashPage.loop cfg pAddr buffer size fuel (i + 1) s
    else s

/-- WriteFlashPage (flash.c 79-111). The loop runs from i = 0 and gets size iterations
of fuel, which is exactly what it needs. -/
def WriteFlashPage (cfg : Config) (address : Nat) (buffer : Nat → Nat) (size : Nat)
    (s : State) : State :=
  let EA_Save := read_EA s
  let pAddr := address
  let s := write_EA 0 s
  let s := write_PSCTL 0x01 s
  let s := if cfg.FLASH_GROUP_WRITE_EN then write_PFE0CN (s.PFE0CN ||| 0x01) s else s
  let s := WriteFlashPage.loop cfg pAddr buffer size size 0 s
  let s := write_PSCTL 0x00 s
  write_EA EA_Save s

/-- The for loop of ReadFlashPage (flash.c 132-135), entered with counter i. -/
def ReadFlashPage.loop (pAddr : Nat) (size : Nat) :
    Nat → Nat → (Nat → Nat) → State → (Nat → Nat) × State
  | 0, _, buffer, s => (buffer, s)
  | fuel + 1, i, buffer, s =>
    if i < size then
      let r := movx_read ((pAddr + i) % 65536) s
      let buffer := fun j => if j = i then r.1 else buffer j
      ReadFlashPage.loop pAddr size fuel (i + 1) buffer r.2
    else (buffer, s)

/-- ReadFlashPage (flash.c 127-136): returns the caller buffer after the call and the
device state. -/
def ReadFlashPage (address : Nat) (buffer : Nat → Nat) (size : Nat) (s : State) :
    (Nat → Nat) × State :=
  let pAddr := address
  ReadFlashPage.loop pAddr size size 0 buffer s

/-- The writes recorded by an operation that took the device from s to s2. -/
def issued (s s2 : State) : List Event :=
  s2.trace.drop s.trace.length

/-- The writes of the loop of WriteFlashPage for the n indices i, i+1, ..., i+n-1, in
that order: the two bytes k0, k1 to FLKEY, then buffer[j] to pAddr + j. -/
def loopOps (k0 k1 pAddr : Nat) (buffer : Nat → Nat) (i n : Nat) : List Op :=
  (List.range' i n).flatMap fun j =>
    [Op.FLKEY k0, Op.FLKEY k1, Op.movx ((pAddr + j) % 65536) (buffer j)]

/-- A recorded write with the given values of EA and PSCTL. -/
def Event.at (ea : Bool) (psctl : Nat) (o : Op) : Event :=
  { op := o, EA := ea, PSCTL := psctl }

/-- The (address, value) pairs of the stores through xdata pointers among ops, in order. -/
def movxWrites (ops : List Op) : List (Nat × Nat) :=
  ops.filterMap fun o => match o with
    | Op.movx a v => some (a, v)
    | _ => none

/-- The values written to FLKEY among ops, in order. -/
def flkeyWrites (ops : List Op) : List Nat :=
  ops.filterMap fun o => match o with
    | Op.FLKEY v => some v
    | _ => none

/-- The values of PSCTL seen by the writes of an operation that took the device from s
to s2, one per write, followed by the value of PSCTL on return. -/
def psctlPath (s s2 : State) : List Nat :=
  (issued s s2).map Event.PSCTL ++ [s2.PSCTL]

/-- Whether a write is a write to the interrupt-enable bit EA. -/
def Op.isEA : Op → Bool
  | Op.EA _ => true
  | _ => false

/-- A call into flash.c: one of its four routines with its arguments. -/
inductive Call
  | SetFlashKey (key1 key2 : Nat)
  | EraseFlashPage (pageAddress : Nat)
  | WriteFlashPage (address : Nat) (buffer : Nat → Nat) (size : Nat)
  | ReadFlashPage (address : Nat) (buffer : Nat → Nat) (size : Nat)

/-- The device state after one call into flash.c. -/
def Call.run (cfg : Config) : Call → State → State
  | Call.SetFlashKey key1 key2, s => Flash.SetFlashKey key1 key2 s
  | Call.EraseFlashPage pageAddress, s => Flash.EraseFlashPage cfg pageAddress s
  | Call.WriteFlashPage address buffer size, s => Flash.WriteFlashPage cfg address buffer size s
  | Call.ReadFlashPage address buffer size, s => (Flash.ReadFlashPage address buffer size s).2

/-- The device state after a sequence of calls into flash.c, first call first. flash.c is
the only code that writes PSCTL, so the states in which its routines are entered are
the states this reaches from the state at reset. -/
def runCalls (cfg : Config) : List Call → State → State
  | [], s => s
  | c :: cs, s => runCalls cfg cs (c.run cfg s)

/-- A state for examples: erased memory, interrupts enabled, everything else at reset. -/
def exampleState : State :=
  { FlashKey0 := 0, FlashKey1 := 0, EA := true, PSCTL := 0, PFE0CN := 0,
    key := KeyState.idle, flash := fun _ => 0xFF, trace := [] }

/-- A build without grouped writes on a device with 512-byte pages. -/
def exampleConfig : Config :=
  { FLASH_GROUP_WRITE_EN := false, pageSize := 512 }

/-! ## Effect of the primitive writes on each component of the state -/

section primitives

variable (cfg : Config) (a v : Nat) (o : Op) (s : State)

@[simp] theorem record_trace :
    (record o s).trace = s.trace ++ [{ op := o, EA := s.EA, PSCTL := s.PSCTL }] := rfl
@[simp] theorem record_EA : (record o s).EA = s.EA := rfl
@[simp] theorem record_PSCTL : (record o s).PSCTL = s.PSCTL := rfl
@[simp] theorem record_PFE0CN : (record o s).PFE0CN = s.PFE0CN := rfl
@[simp] theorem record_FlashKey0 : (record o s).FlashKey0 = s.FlashKey0 := rfl
@[simp] theorem record_FlashKey1 : (record o s).FlashKey1 = s.FlashKey1 := rfl
@[simp] theorem record_key : (record o s).key = s.key := rfl
@[simp] theorem record_flash : (record o s).flash = s.flash := rfl

@[simp] theorem hwMovx_trace : (hwMovx cfg a v s).trace = s.trace := by
  unfold hwMovx; split_ifs <;> rfl
@[simp] theorem hwMovx_EA : (hwMovx cfg a v s).EA = s.EA := by
  unfold hwMovx; split_ifs <;> rfl
@[simp] theorem hwMovx_PSCTL : (hwMovx cfg a v s).PSCTL = s.PSCTL := by
  unfold hwMovx; split_ifs <;> rfl
@[simp] theorem hwMovx_PFE0CN : (hwMovx cfg a v s).PFE0CN = s.PFE0CN := by
  unfold hwMovx; split_ifs <;> rfl
@[simp] theorem hwMovx_FlashKey0 : (hwMovx cfg a v s).FlashKey0 = s.FlashKey0 := by
  unfold hwMovx; split_ifs <;> rfl
@[simp] theorem hwMovx_FlashKey1 : (hwMovx cfg a v s).FlashKey1 = s.FlashKey1 := by
  unfold hwMovx; split_ifs <;> rfl

@[simp] theorem movx_write_trace :
    (movx_write cfg a v s).trace
      = s.trace ++ [{ op := Op.movx a v, EA := s.EA, PSCTL := s.PSCTL }] := by
  simp [movx_write]
@[simp] theorem movx_write_EA : (movx_write cfg a v s).EA = s.EA := by simp [movx_write]
@[simp] theorem movx_write_PSCTL : (movx_write cfg a v s).PSCTL = s.PSCTL := by
  simp [movx_write]
@[simp] theorem movx_write_PFE0CN : (movx_write cfg a v s).PFE0CN = s.PFE0CN := by
  simp [movx_write]
@[simp] theorem movx_write_FlashKey0 : (movx_write cfg a v s).FlashKey0 = s.FlashKey0 := by
  simp [movx_write]
@[simp] theorem movx_write_FlashKey1 : (movx_write cfg a v s).FlashKey1 = s.FlashKey1 := by
  simp [movx_write]

@[simp] theorem write_FLKEY_trace :
    (write_FLKEY v s).trace
      = s.trace ++ [{ op := Op.FLKEY v, EA := s.EA, PSCTL := s.PSCTL }] := rfl
@[simp] theorem write_FLKEY_EA : (write_FLKEY v s).EA = s.EA := rfl
@[simp] theorem write_FLKEY_PSCTL : (write_FLKEY v s).PSCTL = s.PSCTL := rfl
@[simp] theorem write_FLKEY_PFE0CN : (write_FLKEY v s).PFE0CN = s.PFE0CN := rfl
@[simp] theorem write_FLKEY_FlashKey0 : (write_FLKEY v s).FlashKey0 = s.FlashKey0 := rfl
@[simp] theorem write_FLKEY_FlashKey1 : (write_FLKEY v s).FlashKey1 = s.FlashKey1 := rfl
@[simp] theorem write_FLKEY_key : (write_FLKEY v s).key = hwKey v s.key := rfl
@[simp] theorem write_FLKEY_flash : (write_FLKEY v s).flash = s.flash := rfl

@[simp] theorem write_PSCTL_trace :
    (write_PSCTL v s).trace
      = s.trace ++ [{ op := Op.PSCTL v, EA := s.EA, PSCTL := s.PSCTL }] := rfl
@[simp] theorem write_PSCTL_EA : (write_PSCTL v s).EA = s.EA := rfl
@[simp] theorem write_PSCTL_PSCTL : (write_PSCTL v s).PSCTL = v := rfl
@[simp] theorem write_PSCTL_PFE0CN : (write_PSCTL v s).PFE0CN = s.PFE0CN := rfl
@[simp] theorem write_PSCTL_FlashKey0 : (write_PSCTL v s).FlashKey0 = s.FlashKey0 := rfl
@[simp] theorem write_PSCTL_FlashKey1 : (write_PSCTL v s).FlashKey1 = s.FlashKey1 := rfl
@[simp] theorem write_PSCTL_key : (write_PSCTL v s).key = s.key := rfl
@[simp] theorem write_PSCTL_flash : (write_PSCTL v s).flash = s.flash := rfl

@[simp] theorem write_PFE0CN_trace :
    (write_PFE0CN v s).trace
      = s.trace ++ [{ op := Op.PFE0CN v, EA := s.EA, PSCTL := s.PSCTL }] := rfl
@[simp] theorem write_PFE0CN_EA : (write_PFE0CN v s).EA = s.EA := rfl
@[simp] theorem write_PFE0CN_PSCTL : (write_PFE0CN v s).PSCTL = s.PSCTL := rfl
@[simp] theorem write_PFE0CN_PFE0CN : (write_PFE0CN v s).PFE0CN = v := rfl
@[simp] theorem write_PFE0CN_FlashKey0 : (write_PFE0CN v s).FlashKey0 = s.FlashKey0 := rfl
@[simp] theorem write_PFE0CN_FlashKey1 : (write_PFE0CN v s).FlashKey1 = s.FlashKey1 := rfl
@[simp] theorem write_PFE0CN_key : (write_PFE0CN v s).key = s.key := rfl
@[simp] theorem write_PFE0CN_flash : (write_PFE0CN v s).flash = s.flash := rfl

@[simp] theorem write_EA_trace :
    (write_EA v s).trace
      = s.trace ++ [{ op := Op.EA (v != 0), EA := s.EA, PSCTL := s.PSCTL }] := rfl
@[simp] theorem write_EA_EA : (write_EA v s).EA = (v != 0) := rfl
@[simp] theorem write_EA_PSCTL : (write_EA v s).PSCTL = s.PSCTL := rfl
@[simp] theorem write_EA_PFE0CN : (write_EA v s).PFE0CN = s.PFE0CN := rfl
@[simp] theorem write_EA_FlashKey0 : (write_EA v s).FlashKey0 = s.FlashKey0 := rfl
@[simp] theorem write_EA_FlashKey1 : (write_EA v s).FlashKey1 = s.FlashKey1 := rfl
@[simp] theorem write_EA_key : (write_EA v s).key = s.key := rfl
@[simp] theorem write_EA_flash : (write_EA v s).flash = s.flash := rfl

/-- Saving the bit EA in an unsigned char and assigning it back gives the same bit. -/
@[simp] theorem read_EA_ne_zero : (read_EA s != 0) = s.EA := by
  unfold read_EA; cases s.EA <;> rfl

@[simp] theorem issued_append (l : List Event) (s2 : State) (h : s2.trace = s.trace ++ l) :
    issued s s2 = l := by
  simp [issued, h]

end primitives

/-- Every write recorded by EraseFlashPage, with EA and PSCTL at the moment of each. -/
theorem EraseFlashPage_trace (cfg : Config) (pageAddress : Nat) (s : State) :
    (EraseFlashPage cfg pageAddress s).trace = s.trace ++
      [ { op := Op.EA false, EA := s.EA, PSCTL := s.PSCTL },
        { op := Op.FLKEY s.FlashKey0, EA := false, PSCTL := s.PSCTL },
        { op := Op.FLKEY s.FlashKey1, EA := false, PSCTL := s.PSCTL },
        { op := Op.PSCTL 0x03, EA := false, PSCTL := s.PSCTL },
        { op := Op.movx pageAddress 0x00, EA := false, PSCTL := 0x03 },
        { op := Op.PSCTL 0x00, EA := false, PSCTL := 0x03 },
        { op := Op.EA s.EA, EA := false, PSCTL := 0x00 } ] := by
  simp [EraseFlashPage]

theorem loopOps_zero (k0 k1 pAddr : Nat) (buffer : Nat → Nat) (i : Nat) :
    loopOps k0 k1 pAddr buffer i 0 = [] := rfl

theorem loopOps_succ (k0 k1 pAddr : Nat) (buffer : Nat → Nat) (i n : Nat) :
    loopOps k0 k1 pAddr buffer i (n + 1)
      = [Op.FLKEY k0, Op.FLKEY k1, Op.movx ((pAddr + i) % 65536) (buffer i)]
          ++ loopOps k0 k1 pAddr buffer (i + 1) n := by
  simp [loopOps, List.range'_succ]

/-- The loop of WriteFlashPage, entered with counter i and fuel for the remaining
size - i iterations or more, leaves the registers and the stored key as they were and
records exactly the writes of the indices i, ..., size - 1. -/
theorem WriteFlashPage_loop_spec (cfg : Config) (pAddr : Nat) (buffer : Nat → Nat)
    (size : Nat) : ∀ (fuel i : Nat) (s : State), size - i ≤ fuel →
      (WriteFlashPage.loop cfg pAddr buffer size fuel i s).EA = s.EA ∧
      (WriteFlashPage.loop cfg pAddr buffer size fuel i s).PSCTL = s.PSCTL ∧
      (WriteFlashPage.loop cfg pAddr buffer size fuel i s).PFE0CN = s.PFE0CN ∧
      (WriteFlashPage.loop cfg pAddr buffer size fuel i s).FlashKey0 = s.FlashKey0 ∧
      (WriteFlashPage.loop cfg pAddr buffer size fuel i s).FlashKey1 = s.FlashKey1 ∧
      (WriteFlashPage.loop cfg pAddr buffer size fuel i s).trace = s.trace ++
        (loopOps s.FlashKey0 s.FlashKey1 pAddr buffer i (size - i)).map
          (Event.at s.EA s.PSCTL) := by
  intro fuel
  induction fuel with
  | zero =>
    intro i s h
    have h0 : size - i = 0 := by omega
    simp [WriteFlashPage.loop, h0, loopOps_zero]
  | succ fuel ih =>
    intro i s h
    by_cases hi : i < size
    · have hs : size - i = (size - (i + 1)) + 1 := by omega
      have hstep : WriteFlashPage.loop cfg pAddr buffer size (fuel + 1) i s
          = WriteFlashPage.loop cfg pAddr buffer size fuel (i + 1)
              (movx_write cfg ((pAddr + i) % 65536) (buffer i)
                (write_FLKEY s.FlashKey1 (write_FLKEY s.FlashKey0 s))) := by
        simp [WriteFlashPage.loop, hi]
      obtain ⟨h1, h2, h3, h4, h5, h6⟩ :=
        ih (i + 1)
          (movx_write cfg ((pAddr + i) % 65536) (buffer i)
            (write_FLKEY s.FlashKey1 (write_FLKEY s.FlashKey0 s)))
          (by omega)
      simp only [movx_write_EA, movx_write_PSCTL, movx_write_PFE0CN, movx_write_FlashKey0,
        movx_write_FlashKey1, movx_write_trace, write_FLKEY_EA, write_FLKEY_PSCTL,
        write_FLKEY_PFE0CN, write_FLKEY_FlashKey0, write_FLKEY_FlashKey1,
        write_FLKEY_trace] at h1 h2 h3 h4 h5 h6
      rw [hstep]
      refine ⟨h1, h2, h3, h4, h5, ?_⟩
      rw [h6, hs, loopOps_succ]
      simp [Event.at]
    · have h0 : size - i = 0 := by omega
      simp [WriteFlashPage.loop, hi, h0, loopOps_zero]

/-- The result of the loop does not depend on the fuel once there is enough of it: the
loop always ends because its condition i < size fails, never because fuel ran out. -/
theorem WriteFlashPage_loop_fuel (cfg : Config) (pAddr : Nat) (buffer : Nat → Nat)
    (size : Nat) : ∀ (fuel i : Nat) (s : State), size - i ≤ fuel →
      WriteFlashPage.loop cfg pAddr buffer size fuel i s
        = WriteFlashPage.loop cfg pAddr buffer size (size - i) i s := by
  intro fuel
  induction fuel with
  | zero =>
    intro i s h
    have h0 : size - i = 0 := by omega
    rw [h0]
  | succ fuel ih =>
    intro i s h
    by_cases hi : i < size
    · have hs : size - i = (size - (i + 1)) + 1 := by omega
      rw [hs]
      simp only [WriteFlashPage.loop, hi, if_true]
      exact ih _ _ (by omega)
    · have h0 : size - i = 0 := by omega
      rw [h0]
      simp [WriteFlashPage.loop, hi]

/-- Every write recorded by WriteFlashPage, with EA and PSCTL at the moment of each. -/
theorem WriteFlashPage_trace (cfg : Config) (address : Nat) (buffer : Nat → Nat)
    (size : Nat) (s : State) :
    (WriteFlashPage cfg address buffer size s).trace = s.trace ++
      ([ Event.at s.EA s.PSCTL (Op.EA false), Event.at false s.PSCTL (Op.PSCTL 0x01) ]
        ++ (if cfg.FLASH_GROUP_WRITE_EN
              then [Event.at false 0x01 (Op.PFE0CN (s.PFE0CN ||| 0x01))] else [])
        ++ (loopOps s.FlashKey0 s.FlashKey1 address buffer 0 size).map (Event.at false 0x01)
        ++ [ Event.at false 0x01 (Op.PSCTL 0x00), Event.at false 0x00 (Op.EA s.EA) ]) := by
  unfold WriteFlashPage
  simp only []
  obtain ⟨h1, h2, -, -, -, h6⟩ := WriteFlashPage_loop_spec cfg address buffer size size 0
    (if cfg.FLASH_GROUP_WRITE_EN
      then write_PFE0CN ((write_PSCTL 0x01 (write_EA 0 s)).PFE0CN ||| 0x01)
        (write_PSCTL 0x01 (write_EA 0 s))
      else write_PSCTL 0x01 (write_EA 0 s)) (by omega)
  cases hg : cfg.FLASH_GROUP_WRITE_EN <;> simp [hg] at h1 h2 h6 ⊢ <;>
    simp [h1, h2, h6, Event.at]

theorem loopOps_length (k0 k1 pAddr : Nat) (buffer : Nat → Nat) :
    ∀ (n i : Nat), (loopOps k0 k1 pAddr buffer i n).length = 3 * n := by
  intro n
  induction n with
  | zero => intro i; rfl
  | succ n ih => intro i; rw [loopOps_succ]; simp [ih]; omega

theorem movxWrites_loopOps (k0 k1 pAddr : Nat) (buffer : Nat → Nat) :
    ∀ (n i : Nat), movxWrites (loopOps k0 k1 pAddr buffer i n)
      = (List.range' i n).map fun j => ((pAddr + j) % 65536, buffer j) := by
  intro n
  induction n with
  | zero => intro i; rfl
  | succ n ih =>
    intro i
    have h := ih (i + 1)
    rw [loopOps_succ, List.range'_succ]
    simp only [movxWrites] at h ⊢
    simp [List.filterMap_append, List.filterMap_cons, h]

theorem flkeyWrites_loopOps (k0 k1 pAddr : Nat) (buffer : Nat → Nat) :
    ∀ (n i : Nat), flkeyWrites (loopOps k0 k1 pAddr buffer i n)
      = (List.replicate n [k0, k1]).flatten := by
  intro n
  induction n with
  | zero => intro i; rfl
  | succ n ih =>
    intro i
    have h := ih (i + 1)
    rw [loopOps_succ, List.replicate_succ]
    simp only [flkeyWrites] at h ⊢
    simp [List.filterMap_append, List.filterMap_cons, h]

theorem replicate_append_cons (n a : Nat) (l : List Nat) :
    List.replicate n a ++ a :: l = a :: (List.replicate n a ++ l) := by
  induction n with
  | zero => rfl
  | succ n ih => simp [List.replicate_succ, ih]

theorem map_op_at (ea : Bool) (p : Nat) (l : List Op) :
    (l.map (Event.at ea p)).map Event.op = l := by
  induction l with
  | nil => rfl
  | cons o l ih => simpa [Event.at] using ih

theorem map_PSCTL_at (ea : Bool) (p : Nat) (l : List Op) :
    (l.map (Event.at ea p)).map Event.PSCTL = List.replicate l.length p := by
  induction l with
  | nil => rfl
  | cons o l ih => simp [Event.at, List.replicate_succ] at ih ⊢; exact ih

/-- The operations written by EraseFlashPage, in order. -/
theorem EraseFlashPage_issued (cfg : Config) (pageAddress : Nat) (s : State) :
    issued s (EraseFlashPage cfg pageAddress s) =
      [ Event.at s.EA s.PSCTL (Op.EA false),
        Event.at false s.PSCTL (Op.FLKEY s.FlashKey0),
        Event.at false s.PSCTL (Op.FLKEY s.FlashKey1),
        Event.at false s.PSCTL (Op.PSCTL 0x03),
        Event.at false 0x03 (Op.movx pageAddress 0x00),
        Event.at false 0x03 (Op.PSCTL 0x00),
        Event.at false 0x00 (Op.EA s.EA) ] :=
  issued_append s _ _ (EraseFlashPage_trace cfg pageAddress s)

theorem WriteFlashPage_issued (cfg : Config) (address : Nat) (buffer : Nat → Nat)
    (size : Nat) (s : State) :
    issued s (WriteFlashPage cfg address buffer size s) =
      [ Event.at s.EA s.PSCTL (Op.EA false), Event.at false s.PSCTL (Op.PSCTL 0x01) ]
        ++ (if cfg.FLASH_GROUP_WRITE_EN
              then [Event.at false 0x01 (Op.PFE0CN (s.PFE0CN ||| 0x01))] else [])
        ++ (loopOps s.FlashKey0 s.FlashKey1 address buffer 0 size).map (Event.at false 0x01)
        ++ [ Event.at false 0x01 (Op.PSCTL 0x00), Event.at false 0x00 (Op.EA s.EA) ] :=
  issued_append s _ _ (WriteFlashPage_trace cfg address buffer size s)

theorem WriteFlashPage_PSCTL (cfg : Config) (address : Nat) (buffer : Nat → Nat)
    (size : Nat) (s : State) : (WriteFlashPage cfg address buffer size s).PSCTL = 0 := by
  simp [WriteFlashPage]

theorem EraseFlashPage_PSCTL (cfg : Config) (pageAddress : Nat) (s : State) :
    (EraseFlashPage cfg pageAddress s).PSCTL = 0 := by
  simp [EraseFlashPage]

/-! ## The claims -/

/-- C1: for every entry value of EA, stored token, address, buffer and size, the value
of EA after EraseFlashPage returns and after WriteFlashPage returns is its value on
entry. -/
theorem EA_restored (cfg : Config) (pageAddress address : Nat) (buffer : Nat → Nat)
    (size : Nat) (s : State) :
    (EraseFlashPage cfg pageAddress s).EA = s.EA ∧
    (WriteFlashPage cfg address buffer size s).EA = s.EA := by
  constructor <;> simp [EraseFlashPage, WriteFlashPage]

/-- C5: for every address and stored token, the writes issued by EraseFlashPage are
exactly, in order: EA cleared (its entry value having been saved), stored token byte 0
then byte 1 to FLKEY, PSCTL set to 0x03, one store of 0x00 to the target address, PSCTL
cleared to 0, EA set back to its entry value. The store to the target address is the
only store through an xdata pointer. -/
theorem EraseFlashPage_sequence (cfg : Config) (pageAddress : Nat) (s : State) :
    (issued s (EraseFlashPage cfg pageAddress s)).map Event.op =
      [ Op.EA false, Op.FLKEY s.FlashKey0, Op.FLKEY s.FlashKey1, Op.PSCTL 0x03,
        Op.movx pageAddress 0x00, Op.PSCTL 0x00, Op.EA s.EA ] ∧
    movxWrites ((issued s (EraseFlashPage cfg pageAddress s)).map Event.op)
      = [(pageAddress, 0x00)] := by
  rw [EraseFlashPage_issued]
  simp [Event.at, movxWrites]

/-- C6: for every entry value of EA, during EraseFlashPage and during WriteFlashPage
the first write clears EA, every later write (to FLKEY, PSCTL, PFE0CN, flash, and the
final restore of EA) is issued while EA is 0, and so is every write that is not a write
to EA itself. -/
theorem writes_with_interrupts_disabled (cfg : Config) (pageAddress address : Nat)
    (buffer : Nat → Nat) (size : Nat) (s : State) :
    ((issued s (EraseFlashPage cfg pageAddress s)).head?
        = some (Event.at s.EA s.PSCTL (Op.EA false)) ∧
      (∀ e ∈ (issued s (EraseFlashPage cfg pageAddress s)).tail, e.EA = false) ∧
      (∀ e ∈ issued s (EraseFlashPage cfg pageAddress s), e.op.isEA = false → e.EA = false)) ∧
    ((issued s (WriteFlashPage cfg address buffer size s)).head?
        = some (Event.at s.EA s.PSCTL (Op.EA false)) ∧
      (∀ e ∈ (issued s (WriteFlashPage cfg address buffer size s)).tail, e.EA = false) ∧
      (∀ e ∈ issued s (WriteFlashPage cfg address buffer size s),
        e.op.isEA = false → e.EA = false)) := by
  have key : ∀ (l : List Event) (e0 : Event) (rest : List Event), l = e0 :: rest →
      e0.op.isEA = true → (∀ e ∈ rest, e.EA = false) →
      l.head? = some e0 ∧ (∀ e ∈ l.tail, e.EA = false) ∧
        (∀ e ∈ l, e.op.isEA = false → e.EA = false) := by
    intro l e0 rest hl h0 hrest
    subst hl
    refine ⟨rfl, hrest, ?_⟩
    intro e he hop
    rcases List.mem_cons.mp he with h | h
    · subst h; rw [h0] at hop; cases hop
    · exact hrest e h
  constructor
  · refine key _ _ _ (EraseFlashPage_issued cfg pageAddress s) rfl ?_
    intro e he
    simp only [List.mem_cons, List.mem_singleton, List.not_mem_nil, or_false] at he
    rcases he with h | h | h | h | h | h <;> subst h <;> rfl
  · refine key _ _
      ([Event.at false s.PSCTL (Op.PSCTL 0x01)]
        ++ (if cfg.FLASH_GROUP_WRITE_EN
              then [Event.at false 0x01 (Op.PFE0CN (s.PFE0CN ||| 0x01))] else [])
        ++ (loopOps s.FlashKey0 s.FlashKey1 address buffer 0 size).map (Event.at false 0x01)
        ++ [ Event.at false 0x01 (Op.PSCTL 0x00), Event.at false 0x00 (Op.EA s.EA) ])
      (by rw [WriteFlashPage_issued]; simp) rfl ?_
    intro e he
    simp only [List.mem_append, List.mem_cons, List.mem_singleton, List.not_mem_nil,
      or_false, List.mem_map] at he
    rcases he with ((h | h) | ⟨o, -, h⟩) | h | h
    · subst h; rfl
    · split_ifs at h
      · simp only [List.mem_singleton] at h; subst h; rfl
      · cases h
    · subst h; rfl
    · subst h; rfl
    · subst h; rfl

/-- The values of PSCTL along EraseFlashPage and WriteFlashPage from an arbitrary entry
value: PSCTL keeps its entry value until the arming write, then holds the armed value
(0x03 for erase, 0x01 for write), then 0. The write that clears it is the last write
before the one that restores EA. -/
theorem psctlPath_from_entry (cfg : Config) (pageAddress address : Nat)
    (buffer : Nat → Nat) (size : Nat) (s : State) :
    (psctlPath s (EraseFlashPage cfg pageAddress s)
        = List.replicate 4 s.PSCTL ++ List.replicate 2 0x03 ++ List.replicate 2 0x00 ∧
      (issued s (EraseFlashPage cfg pageAddress s)).dropLast.getLast?
        = some (Event.at false 0x03 (Op.PSCTL 0x00)) ∧
      (issued s (EraseFlashPage cfg pageAddress s)).getLast?
        = some (Event.at false 0x00 (Op.EA s.EA)) ∧
      (EraseFlashPage cfg pageAddress s).PSCTL = 0) ∧
    (psctlPath s (WriteFlashPage cfg address buffer size s)
        = List.replicate 2 s.PSCTL
          ++ List.replicate (3 * size + (if cfg.FLASH_GROUP_WRITE_EN then 2 else 1)) 0x01
          ++ List.replicate 2 0x00 ∧
      (issued s (WriteFlashPage cfg address buffer size s)).dropLast.getLast?
        = some (Event.at false 0x01 (Op.PSCTL 0x00)) ∧
      (issued s (WriteFlashPage cfg address buffer size s)).getLast?
        = some (Event.at false 0x00 (Op.EA s.EA)) ∧
      (WriteFlashPage cfg address buffer size s).PSCTL = 0) := by
  have last2 : ∀ (l : List Event) (x y : Event),
      (l ++ [x, y]).dropLast.getLast? = some x ∧ (l ++ [x, y]).getLast? = some y := by
    intro l x y
    have h : l ++ [x, y] = (l ++ [x]) ++ [y] := by simp
    rw [h, List.dropLast_concat]
    simp
  constructor
  · refine ⟨?_, ?_, ?_, EraseFlashPage_PSCTL cfg pageAddress s⟩
    · simp [psctlPath, EraseFlashPage_issued, EraseFlashPage_PSCTL, Event.at,
        List.replicate_succ]
    · rw [EraseFlashPage_issued]; rfl
    · rw [EraseFlashPage_issued]; rfl
  · refine ⟨?_, ?_, ?_, WriteFlashPage_PSCTL cfg address buffer size s⟩
    · rw [psctlPath, WriteFlashPage_issued, WriteFlashPage_PSCTL]
      simp only [List.map_append, map_PSCTL_at, loopOps_length]
      cases cfg.FLASH_GROUP_WRITE_EN <;>
        simp [Event.at, List.replicate_succ, List.replicate_add, List.replicate_succ',
          replicate_append_cons]
    · rw [WriteFlashPage_issued]; exact (last2 _ _ _).1
    · rw [WriteFlashPage_issued]; exact (last2 _ _ _).2

theorem loopOps_eq_range (k0 k1 pAddr : Nat) (buffer : Nat → Nat) (n : Nat) :
    loopOps k0 k1 pAddr buffer 0 n = (List.range n).flatMap fun i =>
      [Op.FLKEY k0, Op.FLKEY k1, Op.movx ((pAddr + i) % 65536) (buffer i)] := by
  simp [loopOps, List.range_eq_range']

/-- The operations written by WriteFlashPage, in order. -/
theorem WriteFlashPage_ops (cfg : Config) (address : Nat) (buffer : Nat → Nat)
    (size : Nat) (s : State) :
    (issued s (WriteFlashPage cfg address buffer size s)).map Event.op =
      [Op.EA false, Op.PSCTL 0x01]
        ++ (if cfg.FLASH_GROUP_WRITE_EN then [Op.PFE0CN (s.PFE0CN ||| 0x01)] else [])
        ++ loopOps s.FlashKey0 s.FlashKey1 address buffer 0 size
        ++ [Op.PSCTL 0x00, Op.EA s.EA] := by
  rw [WriteFlashPage_issued]
  simp only [List.map_append, map_op_at]
  cases cfg.FLASH_GROUP_WRITE_EN <;> simp [Event.at]

theorem WriteFlashPage_movxWrites (cfg : Config) (address : Nat) (buffer : Nat → Nat)
    (size : Nat) (s : State) :
    movxWrites ((issued s (WriteFlashPage cfg address buffer size s)).map Event.op)
      = (List.range size).map fun i => ((address + i) % 65536, buffer i) := by
  have h := movxWrites_loopOps s.FlashKey0 s.FlashKey1 address buffer size 0
  rw [WriteFlashPage_ops, List.range_eq_range']
  simp only [movxWrites] at h ⊢
  cases cfg.FLASH_GROUP_WRITE_EN <;> simp [List.filterMap_append, h]

theorem WriteFlashPage_flkeyWrites (cfg : Config) (address : Nat) (buffer : Nat → Nat)
    (size : Nat) (s : State) :
    flkeyWrites ((issued s (WriteFlashPage cfg address buffer size s)).map Event.op)
      = (List.replicate size [s.FlashKey0, s.FlashKey1]).flatten := by
  have h := flkeyWrites_loopOps s.FlashKey0 s.FlashKey1 address buffer size 0
  rw [WriteFlashPage_ops]
  simp only [flkeyWrites] at h ⊢
  cases cfg.FLASH_GROUP_WRITE_EN <;> simp [List.filterMap_append, h]

/-- C4 (amended): for every address, buffer and size, the writes issued by
WriteFlashPage between entering program mode (PSCTL = 0x01, then the grouped-write flag
when configured) and leaving it (PSCTL = 0x00) are exactly, for i = 0, ..., size-1 in
that order: stored token byte 0 to FLKEY, stored token byte 1 to FLKEY, then buffer[i]
to the 16-bit address (address + i) mod 65536. So the token is presented exactly size
times whatever its value, the bytes are written in increasing index order, and the
addresses written are strictly increasing whenever address + size does not exceed
65536. -/
theorem WriteFlashPage_sequence (cfg : Config) (address : Nat) (buffer : Nat → Nat)
    (size : Nat) (s : State) :
    (issued s (WriteFlashPage cfg address buffer size s)).map Event.op =
      [Op.EA false, Op.PSCTL 0x01]
        ++ (if cfg.FLASH_GROUP_WRITE_EN then [Op.PFE0CN (s.PFE0CN ||| 0x01)] else [])
        ++ ((List.range size).flatMap fun i =>
              [ Op.FLKEY s.FlashKey0, Op.FLKEY s.FlashKey1,
                Op.movx ((address + i) % 65536) (buffer i) ])
        ++ [Op.PSCTL 0x00, Op.EA s.EA] ∧
    flkeyWrites ((issued s (WriteFlashPage cfg address buffer size s)).map Event.op)
      = (List.replicate size [s.FlashKey0, s.FlashKey1]).flatten ∧
    movxWrites ((issued s (WriteFlashPage cfg address buffer size s)).map Event.op)
      = ((List.range size).map fun i => ((address + i) % 65536, buffer i)) ∧
    (address + size ≤ 65536 →
      List.Pairwise (fun x y => x < y)
        ((movxWrites
          ((issued s (WriteFlashPage cfg address buffer size s)).map Event.op)).map
            Prod.fst)) := by
  refine ⟨?_, WriteFlashPage_flkeyWrites cfg address buffer size s,
    WriteFlashPage_movxWrites cfg address buffer size s, ?_⟩
  · rw [WriteFlashPage_ops, loopOps_eq_range]
  · intro hle
    rw [WriteFlashPage_movxWrites, List.map_map, List.pairwise_map]
    refine List.Pairwise.imp_of_mem ?_ (List.pairwise_lt_range size)
    intro i j hi hj hij
    have hi2 := List.mem_range.mp hi
    have hj2 := List.mem_range.mp hj
    simp only [Function.comp]
    omega

/-- Witness for C4 (amended): three bytes written at 0x1000 go to strictly increasing
addresses. -/
theorem WriteFlashPage_sequence_witness :
    0x1000 + 3 ≤ 65536 ∧
    List.Pairwise (fun x y => x < y)
      ((movxWrites
        ((issued exampleState
          (WriteFlashPage exampleConfig 0x1000 (fun i => [0x11, 0x22, 0x33].getD i 0) 3
            exampleState)).map Event.op)).map Prod.fst) :=
  ⟨by decide,
    (WriteFlashPage_sequence exampleConfig 0x1000 (fun i => [0x11, 0x22, 0x33].getD i 0) 3
      exampleState).2.2.2 (by decide)⟩

/-- Counterexample to C4 as stated: WriteFlashPage(0xFFFF, buffer, 2) writes its first
byte to address 0xFFFF and its second byte to address 0x0000, so the addresses written
are not in strictly increasing order. -/
theorem WriteFlashPage_address_wraps :
    (movxWrites
      ((issued exampleState
        (WriteFlashPage exampleConfig 0xFFFF (fun i => [0x11, 0x22].getD i 0) 2
          exampleState)).map Event.op)) = [(0xFFFF, 0x11), (0x0000, 0x22)] ∧
    ¬ List.Pairwise (fun x y => x < y)
      ((movxWrites
        ((issued exampleState
          (WriteFlashPage exampleConfig 0xFFFF (fun i => [0x11, 0x22].getD i 0) 2
            exampleState)).map Event.op)).map Prod.fst) := by
  constructor
  · decide
  · decide

/-! ## ReadFlashPage -/

/-- The loop of ReadFlashPage, entered with counter i and fuel for the remaining
size - i iterations or more, leaves the device state as it was and fills exactly the
buffer positions i, ..., size - 1. -/
theorem ReadFlashPage_loop_spec (pAddr size : Nat) :
    ∀ (fuel i : Nat) (buffer : Nat → Nat) (s : State), size - i ≤ fuel →
      (ReadFlashPage.loop pAddr size fuel i buffer s).2 = s ∧
      ∀ j, (ReadFlashPage.loop pAddr size fuel i buffer s).1 j
        = if i ≤ j ∧ j < size then s.flash ((pAddr + j) % 65536) else buffer j := by
  intro fuel
  induction fuel with
  | zero =>
    intro i buffer s h
    refine ⟨rfl, fun j => ?_⟩
    have hj : ¬ (i ≤ j ∧ j < size) := by omega
    simp [ReadFlashPage.loop, hj]
  | succ fuel ih =>
    intro i buffer s h
    by_cases hi : i < size
    · obtain ⟨h1, h2⟩ := ih (i + 1)
        (fun j => if j = i then s.flash ((pAddr + i) % 65536) else buffer j) s (by omega)
      simp only [ReadFlashPage.loop, hi, if_true, movx_read]
      refine ⟨h1, fun j => ?_⟩
      rw [h2 j]
      by_cases hji : j = i
      · subst hji
        have hn : ¬ (j + 1 ≤ j ∧ j < size) := by omega
        have hp : j ≤ j ∧ j < size := ⟨le_refl j, hi⟩
        simp [hn, hp]
      · by_cases hj : i + 1 ≤ j ∧ j < size
        · have hp : i ≤ j ∧ j < size := by omega
          simp [hj, hp]
        · have hp : ¬ (i ≤ j ∧ j < size) := by omega
          simp [hj, hp, hji]
    · refine ⟨by simp [ReadFlashPage.loop, hi], fun j => ?_⟩
      have hj : ¬ (i ≤ j ∧ j < size) := by omega
      simp [ReadFlashPage.loop, hi, hj]

theorem ReadFlashPage_state (address : Nat) (buffer : Nat → Nat) (size : Nat) (s : State) :
    (ReadFlashPage address buffer size s).2 = s :=
  (ReadFlashPage_loop_spec address size size 0 buffer s (by omega)).1

theorem ReadFlashPage_buffer (address : Nat) (buffer : Nat → Nat) (size : Nat) (s : State)
    (j : Nat) :
    (ReadFlashPage address buffer size s).1 j
      = if j < size then s.flash ((address + j) % 65536) else buffer j := by
  have h := (ReadFlashPage_loop_spec address size size 0 buffer s (by omega)).2 j
  simpa [ReadFlashPage] using h

/-- C7: for every address, size and initial buffer, after ReadFlashPage buffer[i] is the
byte stored at the (16-bit) address address + i for every i below size, the buffer
positions from size on are unchanged, and the device state is the one before the call:
stored token, EA, PSCTL, PFE0CN, key register and flash contents are the same, and no
write was issued. -/
theorem ReadFlashPage_copies (address : Nat) (buffer : Nat → Nat) (size : Nat) (s : State) :
    (∀ i, i < size →
      (ReadFlashPage address buffer size s).1 i = s.flash ((address + i) % 65536)) ∧
    (∀ i, size ≤ i → (ReadFlashPage address buffer size s).1 i = buffer i) ∧
    (ReadFlashPage address buffer size s).2 = s ∧
    (ReadFlashPage address buffer size s).2.FlashKey0 = s.FlashKey0 ∧
    (ReadFlashPage address buffer size s).2.FlashKey1 = s.FlashKey1 ∧
    (ReadFlashPage address buffer size s).2.EA = s.EA ∧
    (ReadFlashPage address buffer size s).2.PSCTL = s.PSCTL ∧
    (ReadFlashPage address buffer size s).2.PFE0CN = s.PFE0CN ∧
    (ReadFlashPage address buffer size s).2.key = s.key ∧
    (ReadFlashPage address buffer size s).2.flash = s.flash ∧
    issued s (ReadFlashPage address buffer size s).2 = [] := by
  have hs := ReadFlashPage_state address buffer size s
  refine ⟨?_, ?_, hs, ?_, ?_, ?_, ?_, ?_, ?_, ?_, ?_⟩
  · intro i hi
    rw [ReadFlashPage_buffer]; simp [hi]
  · intro i hi
    have hn : ¬ i < size := by omega
    rw [ReadFlashPage_buffer]; simp [hn]
  all_goals rw [hs]
  simp [issued]

/-! ## Flash contents under the simulated key register and controller -/

/-- Two writes to the key register leave it unlocked exactly when they are the enabling
sequence 0xA5 then 0xF1, whatever its state before. -/
theorem hwKey_pair (k0 k1 : Nat) (k : KeyState) :
    hwKey k1 (hwKey k0 k) = KeyState.unlocked ↔ k0 = 0xA5 ∧ k1 = 0xF1 := by
  unfold hwKey
  by_cases h0 : k0 = 0xA5 <;> by_cases h1 : k1 = 0xA5 <;> by_cases h2 : k1 = 0xF1 <;>
    simp [h0, h1, h2]
  split_ifs <;> simp

/-- A keyed store whose token is not the enabling one leaves the flash contents as they
were, whatever the value of PSCTL. -/
theorem keyed_store_rejected (cfg : Config) (a v : Nat) (s : State)
    (h : ¬ (s.FlashKey0 = 0xA5 ∧ s.FlashKey1 = 0xF1)) :
    (movx_write cfg a v (write_FLKEY s.FlashKey1 (write_FLKEY s.FlashKey0 s))).flash
      = s.flash := by
  have hk : hwKey s.FlashKey1 (hwKey s.FlashKey0 s.key) ≠ KeyState.unlocked :=
    fun hu => h ((hwKey_pair _ _ _).mp hu)
  simp only [movx_write, hwMovx, record_PSCTL, write_FLKEY_PSCTL, record_key,
    write_FLKEY_key, hk, if_false]
  split_ifs <;> rfl

/-- A keyed store with the enabling token in program mode (PSCTL = 0x01) clears, in the
byte at a, the bits that are clear in v, and changes no other byte. -/
theorem keyed_store_programs (cfg : Config) (a v : Nat) (s : State)
    (hp : s.PSCTL = 0x01) (h0 : s.FlashKey0 = 0xA5) (h1 : s.FlashKey1 = 0xF1) :
    (movx_write cfg a v (write_FLKEY s.FlashKey1 (write_FLKEY s.FlashKey0 s))).flash
      = fun x => if x = a then s.flash a &&& v else s.flash x := by
  have hk : hwKey s.FlashKey1 (hwKey s.FlashKey0 s.key) = KeyState.unlocked :=
    (hwKey_pair _ _ _).mpr ⟨h0, h1⟩
  simp [movx_write, hwMovx, hk, hp]

/-- An erase with the enabling token sets every byte of the page containing the address
to 0xFF and changes no byte of another page. -/
theorem EraseFlashPage_enabled (cfg : Config) (pageAddress : Nat) (s : State)
    (h0 : s.FlashKey0 = 0xA5) (h1 : s.FlashKey1 = 0xF1) :
    (EraseFlashPage cfg pageAddress s).flash
      = fun x => if x / cfg.pageSize = pageAddress / cfg.pageSize then 0xFF else s.flash x := by
  have hk : hwKey 0xF1 (hwKey 0xA5 s.key) = KeyState.unlocked :=
    (hwKey_pair _ _ _).mpr ⟨rfl, rfl⟩
  simp [EraseFlashPage, movx_write, hwMovx, h0, h1, hk]

theorem EraseFlashPage_rejected (cfg : Config) (pageAddress : Nat) (s : State)
    (h : ¬ (s.FlashKey0 = 0xA5 ∧ s.FlashKey1 = 0xF1)) :
    (EraseFlashPage cfg pageAddress s).flash = s.flash := by
  have hk : hwKey s.FlashKey1 (hwKey s.FlashKey0 s.key) ≠ KeyState.unlocked :=
    fun hu => h ((hwKey_pair _ _ _).mp hu)
  simp [EraseFlashPage, movx_write, hwMovx, hk]

theorem WriteFlashPage_loop_rejected (cfg : Config) (pAddr : Nat) (buffer : Nat → Nat)
    (size : Nat) : ∀ (fuel i : Nat) (s : State),
      ¬ (s.FlashKey0 = 0xA5 ∧ s.FlashKey1 = 0xF1) →
      (WriteFlashPage.loop cfg pAddr buffer size fuel i s).flash = s.flash := by
  intro fuel
  induction fuel with
  | zero => intro i s _; rfl
  | succ fuel ih =>
    intro i s h
    by_cases hi : i < size
    · simp only [WriteFlashPage.loop, hi, if_true, write_FLKEY_FlashKey1]
      rw [ih _ _ (by simpa using h)]
      exact keyed_store_rejected cfg _ _ s h
    · simp [WriteFlashPage.loop, hi]

theorem WriteFlashPage_rejected (cfg : Config) (address : Nat) (buffer : Nat → Nat)
    (size : Nat) (s : State) (h : ¬ (s.FlashKey0 = 0xA5 ∧ s.FlashKey1 = 0xF1)) :
    (WriteFlashPage cfg address buffer size s).flash = s.flash := by
  simp only [WriteFlashPage, write_EA_flash, write_PSCTL_flash]
  rw [WriteFlashPage_loop_rejected]
  · cases cfg.FLASH_GROUP_WRITE_EN <;> simp
  · cases cfg.FLASH_GROUP_WRITE_EN <;> simpa using h

/-- C3: with the stored token cleared to (0, 0) by SetFlashKey(0, 0), for every address,
buffer and size, EraseFlashPage and WriteFlashPage leave the flash contents exactly as
they were, on the simulated hardware that grants the unlock to the enabling sequence
only. -/
theorem cleared_token_leaves_flash (cfg : Config) (pageAddress address : Nat)
    (buffer : Nat → Nat) (size : Nat) (s : State) :
    (EraseFlashPage cfg pageAddress (SetFlashKey 0 0 s)).flash = s.flash ∧
    (WriteFlashPage cfg address buffer size (SetFlashKey 0 0 s)).flash = s.flash := by
  have h : ¬ ((SetFlashKey 0 0 s).FlashKey0 = 0xA5 ∧ (SetFlashKey 0 0 s).FlashKey1 = 0xF1) := by
    simp [SetFlashKey]
  exact ⟨EraseFlashPage_rejected cfg pageAddress _ h,
    WriteFlashPage_rejected cfg address buffer size _ h⟩

/-- With the enabling token stored and the controller in program mode, the loop of
WriteFlashPage programs buffer[j] at pAddr + j for each remaining index j and touches no
other byte. The remaining indices hit distinct 16-bit addresses because there are at most
65536 of them. -/
theorem WriteFlashPage_loop_programs (cfg : Config) (pAddr : Nat) (buffer : Nat → Nat)
    (size : Nat) : ∀ (fuel i : Nat) (s : State), size - i ≤ fuel → size ≤ i + 65536 →
      s.PSCTL = 0x01 → s.FlashKey0 = 0xA5 → s.FlashKey1 = 0xF1 →
      (∀ j, i ≤ j → j < size →
        (WriteFlashPage.loop cfg pAddr buffer size fuel i s).flash ((pAddr + j) % 65536)
          = s.flash ((pAddr + j) % 65536) &&& buffer j) ∧
      (∀ x, (∀ j, i ≤ j → j < size → (pAddr + j) % 65536 ≠ x) →
        (WriteFlashPage.loop cfg pAddr buffer size fuel i s).flash x = s.flash x) := by
  intro fuel
  induction fuel with
  | zero =>
    intro i s h _ _ _ _
    refine ⟨fun j h1 h2 => ?_, fun x _ => rfl⟩
    omega
  | succ fuel ih =>
    intro i s h hsz hp h0 h1
    by_cases hi : i < size
    · have hstep : WriteFlashPage.loop cfg pAddr buffer size (fuel + 1) i s
          = WriteFlashPage.loop cfg pAddr buffer size fuel (i + 1)
              (movx_write cfg ((pAddr + i) % 65536) (buffer i)
                (write_FLKEY s.FlashKey1 (write_FLKEY s.FlashKey0 s))) := by
        simp [WriteFlashPage.loop, hi]
      have hfl := keyed_store_programs cfg ((pAddr + i) % 65536) (buffer i) s hp h0 h1
      obtain ⟨ihA, ihB⟩ := ih (i + 1)
        (movx_write cfg ((pAddr + i) % 65536) (buffer i)
          (write_FLKEY s.FlashKey1 (write_FLKEY s.FlashKey0 s)))
        (by omega) (by omega) (by simpa using hp) (by simpa using h0) (by simpa using h1)
      rw [hstep]
      constructor
      · intro j hij hj
        by_cases hji : j = i
        · subst hji
          rw [ihB _ (fun j2 h2 h3 => by omega), hfl]
          simp
        · have hne : (pAddr + j) % 65536 ≠ (pAddr + i) % 65536 := by omega
          rw [ihA j (by omega) hj, hfl]
          simp [hne]
      · intro x hx
        have hne : x ≠ (pAddr + i) % 65536 := fun hxe => hx i (le_refl i) hi hxe.symm
        rw [ihB x (fun j h2 h3 => hx j (by omega) h3), hfl]
        simp [hne]
    · refine ⟨fun j h2 h3 => ?_, fun x _ => by simp [WriteFlashPage.loop, hi]⟩
      omega

/-- With the enabling token stored, WriteFlashPage programs buffer[j] at address + j for
every j below size and changes no other byte. -/
theorem WriteFlashPage_enabled (cfg : Config) (address : Nat) (buffer : Nat → Nat)
    (size : Nat) (s : State) (hn : size ≤ 65536)
    (h0 : s.FlashKey0 = 0xA5) (h1 : s.FlashKey1 = 0xF1) :
    (∀ j, j < size →
      (WriteFlashPage cfg address buffer size s).flash ((address + j) % 65536)
        = s.flash ((address + j) % 65536) &&& buffer j) ∧
    (∀ x, (∀ j, j < size → (address + j) % 65536 ≠ x) →
      (WriteFlashPage cfg address buffer size s).flash x = s.flash x) := by
  have hflash : ∀ s1 : State, (write_EA (read_EA s) (write_PSCTL 0x00 s1)).flash = s1.flash :=
    fun _ => rfl
  cases hg : cfg.FLASH_GROUP_WRITE_EN
  · obtain ⟨hA, hB⟩ := WriteFlashPage_loop_programs cfg address buffer size size 0
      (write_PSCTL 0x01 (write_EA 0 s)) (by omega) (by omega) rfl h0 h1
    simp only [WriteFlashPage, hg, hflash]
    exact ⟨fun j hj => hA j (Nat.zero_le j) hj, fun x hx => hB x (fun j _ hj => hx j hj)⟩
  · obtain ⟨hA, hB⟩ := WriteFlashPage_loop_programs cfg address buffer size size 0
      (write_PFE0CN (s.PFE0CN ||| 0x01) (write_PSCTL 0x01 (write_EA 0 s)))
      (by omega) (by omega) rfl h0 h1
    simp only [WriteFlashPage, hg, hflash]
    exact ⟨fun j hj => hA j (Nat.zero_le j) hj, fun x hx => hB x (fun j _ hj => hx j hj)⟩

theorem erased_and_byte (v : Nat) (h : v < 256) : 0xFF &&& v = v := by
  rw [Nat.land_comm]
  have h8 := Nat.and_pow_two_sub_one_eq_mod v 8
  simpa [Nat.mod_eq_of_lt h] using h8

/-- C2: round trip. For every address a and every sequence b of n bytes (n at most
65536, as size is an unsigned int), if the region of the n addresses a, a+1, ... is
freshly erased (0xFF) and the enabling token (0xA5, 0xF1) has been set with
SetFlashKey, then WriteFlashPage(a, b, n) followed by ReadFlashPage(a, buf, n) leaves
buf[i] equal to b[i] for every i below n. -/
theorem write_read_roundtrip (cfg : Config) (a : Nat) (b buf : Nat → Nat) (n : Nat)
    (s : State) (hn : n ≤ 65536) (hb : ∀ i, i < n → b i < 256)
    (herased : ∀ i, i < n → s.flash ((a + i) % 65536) = 0xFF) :
    ∀ i, i < n →
      (ReadFlashPage a buf n
        (WriteFlashPage cfg a b n (SetFlashKey 0xA5 0xF1 s))).1 i = b i := by
  intro i hi
  have hw := (WriteFlashPage_enabled cfg a b n (SetFlashKey 0xA5 0xF1 s) hn rfl rfl).1 i hi
  rw [ReadFlashPage_buffer, if_pos hi, hw]
  have he : (SetFlashKey 0xA5 0xF1 s).flash ((a + i) % 65536) = 0xFF := herased i hi
  rw [he]
  exact erased_and_byte (b i) (hb i hi)

/-- Witness for C2: the spec scenario a = 0x1000, b = [0x11, 0x22, 0x33], n = 3 on an
erased device. -/
theorem write_read_roundtrip_witness :
    (3 ≤ 65536 ∧ (∀ i, i < 3 → [0x11, 0x22, 0x33].getD i 0 < 256) ∧
      (∀ i, i < 3 → exampleState.flash ((0x1000 + i) % 65536) = 0xFF)) ∧
    (∀ i, i < 3 →
      (ReadFlashPage 0x1000 (fun _ => 0) 3
        (WriteFlashPage exampleConfig 0x1000 (fun i => [0x11, 0x22, 0x33].getD i 0) 3
          (SetFlashKey 0xA5 0xF1 exampleState))).1 i = [0x11, 0x22, 0x33].getD i 0) :=
  ⟨⟨by decide, by decide, fun _ _ => rfl⟩,
    write_read_roundtrip exampleConfig 0x1000 (fun i => [0x11, 0x22, 0x33].getD i 0)
      (fun _ => 0) 3 exampleState (by decide) (by decide) (fun _ _ => rfl)⟩

/-- C8: for every pair of byte values (t0, t1) and every previously stored token,
SetFlashKey(t0, t1) leaves the stored token equal to (t0, t1) and changes nothing else
(t1 is passed as an unsigned and truncated to a byte by the store), so an immediately
following EraseFlashPage presents t0 then t1 to the key register and an immediately
following WriteFlashPage presents t0 then t1 once per byte; EraseFlashPage,
WriteFlashPage and ReadFlashPage never change the stored token. -/
theorem SetFlashKey_sets_token (cfg : Config) (t0 t1 pageAddress address : Nat)
    (buffer : Nat → Nat) (size : Nat) (s : State) (h0 : t0 < 256) (h1 : t1 < 256) :
    SetFlashKey t0 t1 s = { s with FlashKey0 := t0, FlashKey1 := t1 } ∧
    (SetFlashKey t0 t1 s).FlashKey0 < 256 ∧ (SetFlashKey t0 t1 s).FlashKey1 < 256 ∧
    flkeyWrites ((issued (SetFlashKey t0 t1 s)
      (EraseFlashPage cfg pageAddress (SetFlashKey t0 t1 s))).map Event.op) = [t0, t1] ∧
    flkeyWrites ((issued (SetFlashKey t0 t1 s)
      (WriteFlashPage cfg address buffer size (SetFlashKey t0 t1 s))).map Event.op)
        = (List.replicate size [t0, t1]).flatten ∧
    ((EraseFlashPage cfg pageAddress s).FlashKey0 = s.FlashKey0 ∧
      (EraseFlashPage cfg pageAddress s).FlashKey1 = s.FlashKey1) ∧
    ((WriteFlashPage cfg address buffer size s).FlashKey0 = s.FlashKey0 ∧
      (WriteFlashPage cfg address buffer size s).FlashKey1 = s.FlashKey1) ∧
    ((ReadFlashPage address buffer size s).2.FlashKey0 = s.FlashKey0 ∧
      (ReadFlashPage address buffer size s).2.FlashKey1 = s.FlashKey1) := by
  have hset : SetFlashKey t0 t1 s = { s with FlashKey0 := t0, FlashKey1 := t1 } := by
    simp [SetFlashKey, Nat.mod_eq_of_lt h1]
  have hk0 : (SetFlashKey t0 t1 s).FlashKey0 = t0 := by rw [hset]
  have hk1 : (SetFlashKey t0 t1 s).FlashKey1 = t1 := by rw [hset]
  have hloop := WriteFlashPage_loop_spec cfg address buffer size size 0
  refine ⟨hset, by rw [hk0]; exact h0, by rw [hk1]; exact h1, ?_, ?_, ?_, ?_, ?_⟩
  · rw [EraseFlashPage_issued, hk0, hk1]
    simp [Event.at, flkeyWrites]
  · rw [WriteFlashPage_flkeyWrites, hk0, hk1]
  · simp [EraseFlashPage]
  · cases hg : cfg.FLASH_GROUP_WRITE_EN
    · obtain ⟨-, -, -, h4, h5, -⟩ := hloop (write_PSCTL 0x01 (write_EA 0 s)) (by omega)
      simp only [WriteFlashPage, hg]
      exact ⟨h4, h5⟩
    · obtain ⟨-, -, -, h4, h5, -⟩ := hloop
        (write_PFE0CN (s.PFE0CN ||| 0x01) (write_PSCTL 0x01 (write_EA 0 s))) (by omega)
      simp only [WriteFlashPage, hg]
      exact ⟨h4, h5⟩
  · rw [ReadFlashPage_state]
    exact ⟨rfl, rfl⟩

/-- Witness for C8: the enabling token (0xA5, 0xF1) set on the example state. -/
theorem SetFlashKey_sets_token_witness :
    (0xA5 < 256 ∧ 0xF1 < 256) ∧
    (SetFlashKey 0xA5 0xF1 exampleState).FlashKey0 = 0xA5 ∧
    (SetFlashKey 0xA5 0xF1 exampleState).FlashKey1 = 0xF1 ∧
    flkeyWrites ((issued (SetFlashKey 0xA5 0xF1 exampleState)
      (EraseFlashPage exampleConfig 0x1000 (SetFlashKey 0xA5 0xF1 exampleState))).map
        Event.op) = [0xA5, 0xF1] :=
  ⟨⟨by decide, by decide⟩, by decide, by decide,
    (SetFlashKey_sets_token exampleConfig 0xA5 0xF1 0x1000 0x1000 (fun _ => 0) 3
      exampleState (by decide) (by decide)).2.2.2.1⟩

/-- C9: for every address, buffers and state, WriteFlashPage with size 0 presents no
token to the key register and writes no flash byte, leaving the flash contents (and the
key register state, the stored token and EA) unchanged, and ReadFlashPage with size 0
leaves every byte of the buffer and the device state unchanged. -/
theorem size_zero_is_noop (cfg : Config) (a : Nat) (b buf : Nat → Nat) (s : State) :
    flkeyWrites ((issued s (WriteFlashPage cfg a b 0 s)).map Event.op) = [] ∧
    movxWrites ((issued s (WriteFlashPage cfg a b 0 s)).map Event.op) = [] ∧
    (WriteFlashPage cfg a b 0 s).flash = s.flash ∧
    (WriteFlashPage cfg a b 0 s).key = s.key ∧
    (WriteFlashPage cfg a b 0 s).FlashKey0 = s.FlashKey0 ∧
    (WriteFlashPage cfg a b 0 s).FlashKey1 = s.FlashKey1 ∧
    (WriteFlashPage cfg a b 0 s).EA = s.EA ∧
    (ReadFlashPage a buf 0 s).1 = buf ∧
    (ReadFlashPage a buf 0 s).2 = s := by
  refine ⟨?_, ?_, ?_, ?_, ?_, ?_, ?_, rfl, rfl⟩
  · rw [WriteFlashPage_flkeyWrites]; rfl
  · rw [WriteFlashPage_movxWrites]; rfl
  all_goals cases hg : cfg.FLASH_GROUP_WRITE_EN <;> simp [WriteFlashPage, WriteFlashPage.loop, hg]

/-- Every routine of flash.c returns with the controller LOCKED when it is entered with
the controller LOCKED. -/
theorem Call.run_PSCTL (cfg : Config) (c : Call) (s : State) (h : s.PSCTL = 0) :
    (c.run cfg s).PSCTL = 0 := by
  cases c with
  | SetFlashKey key1 key2 => exact h
  | EraseFlashPage pageAddress => exact EraseFlashPage_PSCTL cfg pageAddress s
  | WriteFlashPage address buffer size => exact WriteFlashPage_PSCTL cfg address buffer size s
  | ReadFlashPage address buffer size =>
    show (Flash.ReadFlashPage address buffer size s).2.PSCTL = 0
    rw [ReadFlashPage_state]; exact h

/-- LOCKED is invariant under every sequence of calls into flash.c. -/
theorem runCalls_PSCTL (cfg : Config) :
    ∀ (calls : List Call) (s : State), s.PSCTL = 0 → (runCalls cfg calls s).PSCTL = 0 := by
  intro calls
  induction calls with
  | nil => intro s h; exact h
  | cons c cs ih => intro s h; exact ih (c.run cfg s) (Call.run_PSCTL cfg c s h)

/-- C10: modelling the controller state by PSCTL (LOCKED = 0, ERASE_ARMED = 0x03,
WRITE_ARMED = 0x01), in every execution of EraseFlashPage and of WriteFlashPage, for
every entry state (any state reached from a controller LOCKED at reset by any sequence
of calls into flash.c, with any token, EA, flash contents and key register state) and
every size, the controller is LOCKED on entry and goes LOCKED, armed, LOCKED; the write
that returns it to LOCKED is the last write before the one that restores EA, so the
controller is LOCKED when EA is restored and on return. -/
theorem controller_locked_armed_locked (cfg : Config) (calls : List Call)
    (pageAddress address : Nat) (buffer : Nat → Nat) (size : Nat) (s0 : State)
    (h : s0.PSCTL = 0) :
    (runCalls cfg calls s0).PSCTL = 0 ∧
    (psctlPath (runCalls cfg calls s0) (EraseFlashPage cfg pageAddress (runCalls cfg calls s0))
        = List.replicate 4 0x00 ++ List.replicate 2 0x03 ++ List.replicate 2 0x00 ∧
      (issued (runCalls cfg calls s0)
          (EraseFlashPage cfg pageAddress (runCalls cfg calls s0))).dropLast.getLast?
        = some (Event.at false 0x03 (Op.PSCTL 0x00)) ∧
      (issued (runCalls cfg calls s0)
          (EraseFlashPage cfg pageAddress (runCalls cfg calls s0))).getLast?
        = some (Event.at false 0x00 (Op.EA (runCalls cfg calls s0).EA)) ∧
      (EraseFlashPage cfg pageAddress (runCalls cfg calls s0)).PSCTL = 0) ∧
    (psctlPath (runCalls cfg calls s0)
          (WriteFlashPage cfg address buffer size (runCalls cfg calls s0))
        = List.replicate 2 0x00
          ++ List.replicate (3 * size + (if cfg.FLASH_GROUP_WRITE_EN then 2 else 1)) 0x01
          ++ List.replicate 2 0x00 ∧
      (issued (runCalls cfg calls s0)
          (WriteFlashPage cfg address buffer size (runCalls cfg calls s0))).dropLast.getLast?
        = some (Event.at false 0x01 (Op.PSCTL 0x00)) ∧
      (issued (runCalls cfg calls s0)
          (WriteFlashPage cfg address buffer size (runCalls cfg calls s0))).getLast?
        = some (Event.at false 0x00 (Op.EA (runCalls cfg calls s0).EA)) ∧
      (WriteFlashPage cfg address buffer size (runCalls cfg calls s0)).PSCTL = 0) := by
  have hs := runCalls_PSCTL cfg calls s0 h
  have hp := psctlPath_from_entry cfg pageAddress address buffer size (runCalls cfg calls s0)
  rw [hs] at hp
  exact ⟨hs, hp.1, hp.2⟩

/-- Witness for C10: from the example state (LOCKED at reset), after setting the enabling
token, writing three bytes and reading them back, an erase of the page at 0x1000 takes
the controller LOCKED, ERASE_ARMED, LOCKED. -/
theorem controller_locked_armed_locked_witness :
    exampleState.PSCTL = 0 ∧
    psctlPath
        (runCalls exampleConfig
          [Call.SetFlashKey 0xA5 0xF1,
            Call.WriteFlashPage 0x1000 (fun i => [0x11, 0x22, 0x33].getD i 0) 3,
            Call.ReadFlashPage 0x1000 (fun _ => 0) 3] exampleState)
        (EraseFlashPage exampleConfig 0x1000
          (runCalls exampleConfig
            [Call.SetFlashKey 0xA5 0xF1,
              Call.WriteFlashPage 0x1000 (fun i => [0x11, 0x22, 0x33].getD i 0) 3,
              Call.ReadFlashPage 0x1000 (fun _ => 0) 3] exampleState))
      = List.replicate 4 0x00 ++ List.replicate 2 0x03 ++ List.replicate 2 0x00 :=
  ⟨rfl,
    (controller_locked_armed_locked exampleConfig
      [Call.SetFlashKey 0xA5 0xF1,
        Call.WriteFlashPage 0x1000 (fun i => [0x11, 0x22, 0x33].getD i 0) 3,
        Call.ReadFlashPage 0x1000 (fun _ => 0) 3]
      0x1000 0x1000 (fun _ => 0) 3 exampleState rfl).2.1.1⟩

end Flash
